import Mathlib

/-!
Shallow embedding of the query model of `src/sql.rs` (nanobot):
the `Select` struct and its builder methods, the SQL compiler
(`select_to_sql`, `select_to_sql_count`), the URL renderer
(`select_to_url`) and the result reshaper (`rows_to_map`),
together with theorems settling the specification claims.

Rust `panic!` sites (the `as_str().unwrap()` calls on filter values and
on the key column of a row) are modelled by `Option`: a function returns
`none` exactly when the Rust original panics.
-/

namespace Nanobot

/-- `enum Operator { EQUALS }` from src/sql.rs. -/
inductive Operator
  | EQUALS
deriving DecidableEq

/-- `enum Direction { ASC, DESC }` from src/sql.rs. -/
inductive Direction
  | ASC
  | DESC
deriving DecidableEq

/-- Rust `format!("{:?}", direction)`: the Debug rendering used in ORDER BY. -/
def dirDebug : Direction → String
  | Direction.ASC => "ASC"
  | Direction.DESC => "DESC"

/-- Rust `format!("{:?}", direction).to_lowercase()` as used in `select_to_url`. -/
def dirLower : Direction → String
  | Direction.ASC => "asc"
  | Direction.DESC => "desc"

/-- `serde_json::Value` restricted to the shapes this code manipulates. -/
inductive Value
  | vNull
  | vBool (b : Bool)
  | vNum (n : Int)
  | vStr (s : String)
  | vObj (fields : List (String × Value))

/-- `Value::as_str`: `some` exactly on JSON strings. -/
def Value.asStr : Value → Option String
  | Value.vStr s => some s
  | _ => none

/-- `struct Select` from src/sql.rs: table, projected columns, filters,
order pairs, limit and offset. -/
structure Select where
  table : String
  select : List String
  filter : List (String × Operator × Value)
  order : List (String × Direction)
  limit : Nat
  offset : Nat

/-- `Select::new()`, i.e. `Default::default()`: empty strings/vectors, zeroes. -/
def Select.new : Select :=
  { table := "", select := [], filter := [], order := [], limit := 0, offset := 0 }

/-- `pub const LIMIT_MAX: usize = 100;` (declared in src/sql.rs). -/
def LIMIT_MAX : Nat := 100

/-- `pub const LIMIT_DEFAULT: usize = 10;` (declared in src/sql.rs). -/
def LIMIT_DEFAULT : Nat := 10

/-- The builder methods of `impl Select`, as pure functions on the receiver. -/
def SelectOps.table (s : Select) (t : String) : Select :=
  { s with table := t }

/-- `Select::select`: pushes each given column onto the existing list. -/
def SelectOps.select (s : Select) (v : List String) : Select :=
  { s with select := s.select ++ v }

/-- `Select::filter`: pushes each given triple onto the existing list. -/
def SelectOps.filter (s : Select) (v : List (String × Operator × Value)) : Select :=
  { s with filter := s.filter ++ v }

/-- `Select::order`: pushes each given pair onto the existing list. -/
def SelectOps.order (s : Select) (v : List (String × Direction)) : Select :=
  { s with order := s.order ++ v }

/-- `Select::limit`: stores the argument unchanged. -/
def SelectOps.limit (s : Select) (n : Nat) : Select :=
  { s with limit := n }

/-- `Select::offset`: stores the argument unchanged. -/
def SelectOps.offset (s : Select) (n : Nat) : Select :=
  { s with offset := n }

/-- The `Select` values reachable through `new` and the builder methods. -/
inductive Reachable : Select → Prop
  | new : Reachable Select.new
  | table (s : Select) (t : String) : Reachable s → Reachable (SelectOps.table s t)
  | select (s : Select) (v : List String) : Reachable s → Reachable (SelectOps.select s v)
  | filter (s : Select) (v : List (String × Operator × Value)) :
      Reachable s → Reachable (SelectOps.filter s v)
  | order (s : Select) (v : List (String × Direction)) :
      Reachable s → Reachable (SelectOps.order s v)
  | limit (s : Select) (n : Nat) : Reachable s → Reachable (SelectOps.limit s n)
  | offset (s : Select) (n : Nat) : Reachable s → Reachable (SelectOps.offset s n)

/-- Rust `Vec::join(sep)`: empty vector gives `""`, otherwise the items
interleaved with `sep`. -/
def joinSep (sep : String) : List String → String
  | [] => ""
  | [x] => x
  | x :: y :: rest => x ++ sep ++ joinSep sep (y :: rest)

/-- Decimal digits of a usize as printed by Rust `{}` formatting
(most significant first); `fuel` bounds the recursion so that the
definition is structural. -/
def natDigitsAux : Nat → Nat → List Char
  | 0, _ => []
  | fuel + 1, k =>
    if k < 10 then [Nat.digitChar k]
    else natDigitsAux fuel (k / 10) ++ [Nat.digitChar (k % 10)]

/-- Rust `format!("{}", k)` for `k : usize`. -/
def natRepr (k : Nat) : String :=
  String.mk (natDigitsAux (k + 1) k)

/-- Run an option-valued function over a list, failing at the first
`none` — models a Rust loop whose body may panic. -/
def optionMap (f : α → Option β) : List α → Option (List β)
  | [] => some []
  | x :: xs =>
    match f x, optionMap f xs with
    | some y, some ys => some (y :: ys)
    | _, _ => none

/-- Fold an option-valued step over a list, failing at the first `none`. -/
def foldOption (f : β → α → Option β) : β → List α → Option β
  | b, [] => some b
  | b, x :: xs =>
    match f b x with
    | some b' => foldOption f b' xs
    | none => none

/-- One rendered filter of `select_to_sql`:
`format!(r#""{}" = '{}'"#, filter.0, filter.2.as_str().unwrap())`;
`none` when the value is not a JSON string (Rust panics). -/
def renderFilterSqlFetch (f : String × Operator × Value) : Option String :=
  match f.2.2.asStr with
  | some v => some ("\"" ++ f.1 ++ "\" = '" ++ v ++ "'")
  | none => none

/-- One rendered filter of `select_to_sql_count` (the source duplicates the
format string of `select_to_sql` verbatim). -/
def renderFilterSqlCount (f : String × Operator × Value) : Option String :=
  match f.2.2.asStr with
  | some v => some ("\"" ++ f.1 ++ "\" = '" ++ v ++ "'")
  | none => none

/-- The `lines` vector built by `select_to_sql` before the final join. -/
def selectToSqlLines (s : Select) : Option (List String) :=
  match optionMap renderFilterSqlFetch s.filter with
  | none => none
  | some fs =>
    some (["SELECT json_object(",
           "  " ++ joinSep ",\n  " (s.select.map (fun c => "'" ++ c ++ "', \"" ++ c ++ "\"")),
           ") AS json_result",
           "FROM \"" ++ s.table ++ "\""]
      ++ (if 0 < s.filter.length then ["WHERE " ++ joinSep "\n  AND " fs] else [])
      ++ (if 0 < s.order.length then
            ["ORDER BY " ++ joinSep ", " (s.order.map (fun p => "\"" ++ p.1 ++ "\" " ++ dirDebug p.2))]
          else [])
      ++ (if 0 < s.limit then ["LIMIT " ++ natRepr s.limit] else [])
      ++ (if 0 < s.offset then ["OFFSET " ++ natRepr s.offset] else []))

/-- `select_to_sql`: the lines joined with `"\n"`. -/
def selectToSql (s : Select) : Option String :=
  match selectToSqlLines s with
  | none => none
  | some ls => some (joinSep "\n" ls)

/-- The `lines` vector built by `select_to_sql_count` before the final join. -/
def selectToSqlCountLines (s : Select) : Option (List String) :=
  match optionMap renderFilterSqlCount s.filter with
  | none => none
  | some fs =>
    some (["SELECT COUNT(*) AS count",
           "FROM \"" ++ s.table ++ "\""]
      ++ (if 0 < s.filter.length then ["WHERE " ++ joinSep "\n  AND " fs] else []))

/-- `select_to_sql_count`: the lines joined with `"\n"`. -/
def selectToSqlCount (s : Select) : Option String :=
  match selectToSqlCountLines s with
  | none => none
  | some ls => some (joinSep "\n" ls)

/-- One rendered filter of `select_to_url`:
`format!(r#"{}=eq.{}"#, filter.0, filter.2.as_str().unwrap())`. -/
def renderFilterUrl (f : String × Operator × Value) : Option String :=
  match f.2.2.asStr with
  | some v => some (f.1 ++ "=eq." ++ v)
  | none => none

/-- One order pair of `select_to_url`: `format!(r#"{}.{}"#, c, debug-lowercased d)`. -/
def urlOrderPart (p : String × Direction) : String :=
  p.1 ++ "." ++ dirLower p.2

/-- The `params` vector built by `select_to_url` before the final join. -/
def selectToUrlParams (s : Select) : Option (List String) :=
  match optionMap renderFilterUrl s.filter with
  | none => none
  | some fps =>
    some (fps
      ++ (if 0 < s.order.length then
            ["order=" ++ joinSep ", " (s.order.map urlOrderPart)]
          else [])
      ++ (if 0 < s.limit ∧ s.limit ≠ LIMIT_DEFAULT then ["limit=" ++ natRepr s.limit] else [])
      ++ (if 0 < s.offset then ["offset=" ++ natRepr s.offset] else []))

/-- `select_to_url`: `table?{params joined with &}`, or just the table name
when there are no parameters. -/
def selectToUrl (s : Select) : Option String :=
  match selectToUrlParams s with
  | none => none
  | some ps => some (if 0 < ps.length then s.table ++ "?" ++ joinSep "&" ps else s.table)

/-- `serde_json::Map::insert` with the `preserve_order` feature (an index
map, which the source relies on — see the order-preservation comment in
`rows_to_map`): an existing key keeps its position and gets the new value,
a new key is appended. -/
def mapInsert (m : List (String × Value)) (k : String) (v : Value) : List (String × Value) :=
  if m.any (fun p => p.1 = k) then m.map (fun p => if p.1 = k then (k, v) else p)
  else m ++ [(k, v)]

/-- The body of the `rows_to_map` loop for one row: walk the entries in
order, remember the key column's string value (initially `""`), insert
every other entry into a fresh map.  `none` when the key column holds a
non-string value (`v.as_str().unwrap()` panics). -/
def rowSplit (row : List (String × Value)) (column : String) :
    Option (String × List (String × Value)) :=
  foldOption
    (fun acc kv =>
      if kv.1 = column then
        match kv.2.asStr with
        | some s => some (s, acc.2)
        | none => none
      else some (acc.1, mapInsert acc.2 kv.1 kv.2))
    ("", []) row

/-- `rows_to_map` from src/sql.rs: build a map keyed by the designated
column's value, each entry mapping to the row with that column removed. -/
def rowsToMap (rows : List (List (String × Value))) (column : String) :
    Option (List (String × Value)) :=
  foldOption
    (fun m row =>
      match rowSplit row column with
      | some kr => some (mapInsert m kr.1 (Value.vObj kr.2))
      | none => none)
    [] rows

/-- Split a character list at every occurrence of `c` (the pieces, in
order, with the separators removed); always returns at least one piece. -/
def splitOnChar (c : Char) : List Char → List (List Char)
  | [] => [[]]
  | x :: xs =>
    match splitOnChar c xs with
    | [] => if x = c then [[], []] else [[x]]
    | y :: ys => if x = c then [] :: y :: ys else (x :: y) :: ys

/-- Split a character list at the first occurrence of `c`; `none` when `c`
does not occur. -/
def splitFirst (c : Char) : List Char → Option (List Char × List Char)
  | [] => none
  | x :: xs =>
    if x = c then some ([], xs)
    else (splitFirst c xs).map (fun p => (x :: p.1, p.2))

/-- Modelled from the spec: the direction names admitted by the wire
grammar (`order := "order=" column "." direction ...`). -/
def parseDirection : List Char → Option Direction
  | ['a', 's', 'c'] => some Direction.ASC
  | ['d', 'e', 's', 'c'] => some Direction.DESC
  | _ => none

/-- Modelled from the spec: one `column "." direction` element of an
`order=` directive. -/
def parseOrderPiece (p : List Char) : Option (String × Direction) :=
  match splitOnChar '.' p with
  | [c, d] => (parseDirection d).map (fun dir => (String.mk c, dir))
  | _ => none

/-- Modelled from the spec: a decimal integer as accepted by
`limit=` / `offset=` parameters. -/
def parseNatChars : List Char → Option Nat
  | [] => none
  | l =>
    foldOption
      (fun acc c =>
        if 48 ≤ c.toNat ∧ c.toNat ≤ 57 then some (acc * 10 + (c.toNat - 48)) else none)
      0 l

/-- Modelled from the spec: classification of one query-string parameter
by the URL Codec's parse operation, which is absent from src/ (the spec
describes it in §4.3 and §6; only the render half, `select_to_url`,
exists).  `order=`, `limit=` and `offset=` directives are recognised
first; any other parameter containing `=` is an equality filter
(an `eq.` operator tag is stripped from the value); a parameter without
`=` is ignored (parsing is permissive). -/
def parseParam (q : Select) (p : List Char) : Option Select :=
  if List.isPrefixOf "order=".data p then
    (optionMap parseOrderPiece (splitOnChar ',' (p.drop 6))).map
      (fun os => { q with order := q.order ++ os })
  else if List.isPrefixOf "limit=".data p then
    (parseNatChars (p.drop 6)).map (fun n => { q with limit := n })
  else if List.isPrefixOf "offset=".data p then
    (parseNatChars (p.drop 7)).map (fun n => { q with offset := n })
  else
    match splitFirst '=' p with
    | none => some q
    | some (c, rest) =>
      let v := if List.isPrefixOf "eq.".data rest then rest.drop 3 else rest
      some { q with filter := q.filter ++ [(String.mk c, Operator.EQUALS, Value.vStr (String.mk v))] }

/-- Modelled from the spec: `parse(path, query_string) -> Query` (§6).
The path segment is the table; the query string splits on `&`; the limit
starts at the default 10, which the render canonicalisation omits (§4.4)
and the round-trip contract of §4.3 therefore requires parse to restore;
offset starts at 0 (§8 scenario). -/
def parse (path query : String) : Option Select :=
  foldOption parseParam
    { Select.new with table := path, limit := LIMIT_DEFAULT }
    (splitOnChar '&' query.data)

/-- Modelled from the spec: parse a full rendered URL by splitting at the
first `?` into path and query string. -/
def parseUrl (u : String) : Option Select :=
  match splitFirst '?' u.data with
  | none => parse (String.mk u.data) ""
  | some (p, q) => parse (String.mk p) (String.mk q)

/-- Field-category equivalence of two queries (§4.3): same table, same
filters up to order, identical order list, same limit and offset. -/
def equivQ (a b : Select) : Prop :=
  a.table = b.table ∧ List.Perm a.filter b.filter ∧ a.order = b.order ∧
    a.limit = b.limit ∧ a.offset = b.offset

/-- The word `w` occurs as a substring of no caller-supplied text of `s`:
not in the table name, no filter column, no string filter value, no order
column. -/
def NoOccur (s : Select) (w : String) : Prop :=
  ¬ w.data <:+: s.table.data ∧
    (∀ f ∈ s.filter, ¬ w.data <:+: f.1.data) ∧
    (∀ f ∈ s.filter, ∀ v, Value.asStr f.2.2 = some v → ¬ w.data <:+: v.data) ∧
    (∀ o ∈ s.order, ¬ w.data <:+: o.1.data)

/-- The ten decimal digit characters. -/
def digitList : List Char := ['0', '1', '2', '3', '4', '5', '6', '7', '8', '9']

/-- The fixed first line of the count statement. -/
def countHeaderLine : String := "SELECT COUNT(*) AS count"

/-- The `FROM` line shared by both compiled statements. -/
def sqlFromLine (s : Select) : String := "FROM \"" ++ s.table ++ "\""

/-- The `WHERE` clause rendered from a list of compiled filters. -/
def sqlWhereLine (fs : List String) : String := "WHERE " ++ joinSep "\n  AND " fs

/-- The trailing ORDER BY / LIMIT / OFFSET lines of the row-fetch statement. -/
def sqlTail (s : Select) : List String :=
  (if 0 < s.order.length then
      ["ORDER BY " ++ joinSep ", " (s.order.map (fun p => "\"" ++ p.1 ++ "\" " ++ dirDebug p.2))]
    else [])
  ++ (if 0 < s.limit then ["LIMIT " ++ natRepr s.limit] else [])
  ++ (if 0 < s.offset then ["OFFSET " ++ natRepr s.offset] else [])

/-- A round-trip input within the claimed envelope: equality filters only,
ASC/DESC ordering, limit in [1,100], offset 0. -/
def rtQ : Select :=
  { table := "t", select := [], filter := [],
    order := [("a", Direction.ASC), ("b", Direction.DESC)], limit := 5, offset := 0 }

/-- What the modelled parse recovers from `select_to_url rtQ`: the second
order column comes back as `" b"` because the renderer joined the order
pairs with a comma and a space. -/
def rtQ' : Select :=
  { table := "t", select := [], filter := [],
    order := [("a", Direction.ASC), (" b", Direction.DESC)], limit := 5, offset := 0 }

end Nanobot

namespace Nanobot

/-- Sanity check: the modelled parse reproduces the spec's §8 scenario. -/
theorem parse_scenario :
    parse "people" "name=eq.Alice&order=age.desc&limit=5"
      = some { table := "people", select := [],
               filter := [("name", Operator.EQUALS, Value.vStr "Alice")],
               order := [("age", Direction.DESC)], limit := 5, offset := 0 } := rfl

theorem optionMap_exists {α β : Type} {f : α → Option β} :
    ∀ l : List α, (∀ x ∈ l, (f x).isSome = true) → ∃ ys, optionMap f l = some ys
  | [], _ => ⟨[], rfl⟩
  | x :: xs, h => by
    obtain ⟨y, hy⟩ := Option.isSome_iff_exists.mp (h x (by simp))
    obtain ⟨ys, hys⟩ := optionMap_exists xs (fun a ha => h a (by simp [ha]))
    exact ⟨y :: ys, by simp [optionMap, hy, hys]⟩

theorem optionMap_mem {α β : Type} {f : α → Option β} :
    ∀ {l : List α} {ys : List β}, optionMap f l = some ys →
      ∀ y ∈ ys, ∃ x ∈ l, f x = some y := by
  intro l
  induction l with
  | nil =>
    intro ys h y hy
    simp only [optionMap, Option.some.injEq] at h
    subst h
    simp at hy
  | cons x xs ih =>
    intro ys h y hy
    cases hx : f x with
    | none => simp [optionMap, hx] at h
    | some y0 =>
      cases hxs : optionMap f xs with
      | none => simp [optionMap, hx, hxs] at h
      | some ys0 =>
        simp only [optionMap, hx, hxs, Option.some.injEq] at h
        subst h
        rcases List.mem_cons.mp hy with rfl | hmem
        · exact ⟨x, by simp, hx⟩
        · obtain ⟨a, ha, hfa⟩ := ih hxs y hmem
          exact ⟨a, by simp [ha], hfa⟩

theorem renderFilterSqlFetch_isSome {f : String × Operator × Value}
    (h : (Value.asStr f.2.2).isSome = true) : (renderFilterSqlFetch f).isSome = true := by
  cases hv : f.2.2.asStr with
  | none => rw [hv] at h; cases h
  | some v => simp [renderFilterSqlFetch, hv]

theorem renderFilterSqlCount_isSome {f : String × Operator × Value}
    (h : (Value.asStr f.2.2).isSome = true) : (renderFilterSqlCount f).isSome = true := by
  cases hv : f.2.2.asStr with
  | none => rw [hv] at h; cases h
  | some v => simp [renderFilterSqlCount, hv]

theorem renderFilterUrl_isSome {f : String × Operator × Value}
    (h : (Value.asStr f.2.2).isSome = true) : (renderFilterUrl f).isSome = true := by
  cases hv : f.2.2.asStr with
  | none => rw [hv] at h; cases h
  | some v => simp [renderFilterUrl, hv]

theorem mapInsert_of_forall_ne (m : List (String × Value)) (k : String) (v : Value)
    (h : ∀ p ∈ m, p.1 ≠ k) : mapInsert m k v = m ++ [(k, v)] := by
  unfold mapInsert
  rw [if_neg]
  simp only [List.any_eq_true, decide_eq_true_eq, not_exists]
  intro p hp
  exact h p hp.1 hp.2

theorem rowsToMap_go {col : String} :
    ∀ (rows : List (List (String × Value)))
      (splits : List (String × List (String × Value))) (m : List (String × Value)),
      optionMap (fun r => rowSplit r col) rows = some splits →
      (splits.map Prod.fst).Nodup →
      (∀ p ∈ splits, ∀ q ∈ m, q.1 ≠ p.1) →
      foldOption
          (fun m row =>
            match rowSplit row col with
            | some kr => some (mapInsert m kr.1 (Value.vObj kr.2))
            | none => none)
          m rows
        = some (m ++ splits.map (fun p => (p.1, Value.vObj p.2))) := by
  intro rows
  induction rows with
  | nil =>
    intro splits m h _ _
    simp only [optionMap, Option.some.injEq] at h
    subst h
    simp [foldOption]
  | cons r rs ih =>
    intro splits m h hnd hfresh
    cases hr : rowSplit r col with
    | none => simp [optionMap, hr] at h
    | some p =>
      cases hrs : optionMap (fun r => rowSplit r col) rs with
      | none => simp [optionMap, hr, hrs] at h
      | some ps =>
        simp only [optionMap, hr, hrs, Option.some.injEq] at h
        subst h
        have hins : mapInsert m p.1 (Value.vObj p.2) = m ++ [(p.1, Value.vObj p.2)] :=
          mapInsert_of_forall_ne m p.1 (Value.vObj p.2)
            (fun q hq => hfresh p (by simp) q hq)
        have hnd' : (ps.map Prod.fst).Nodup := (List.nodup_cons.mp hnd).2
        have hhead : p.1 ∉ ps.map Prod.fst := (List.nodup_cons.mp hnd).1
        have hfresh' : ∀ p' ∈ ps, ∀ q ∈ m ++ [(p.1, Value.vObj p.2)], q.1 ≠ p'.1 := by
          intro p' hp' q hq
          rcases List.mem_append.mp hq with hqm | hqe
          · exact hfresh p' (by simp [hp']) q hqm
          · have : q = (p.1, Value.vObj p.2) := by simpa using hqe
            subst this
            intro hcontr
            exact hhead (hcontr ▸ List.mem_map_of_mem Prod.fst hp')
        calc
          foldOption _ m (r :: rs)
              = foldOption
                  (fun m row =>
                    match rowSplit row col with
                    | some kr => some (mapInsert m kr.1 (Value.vObj kr.2))
                    | none => none)
                  (m ++ [(p.1, Value.vObj p.2)]) rs := by
                simp [foldOption, hr, hins]
          _ = some ((m ++ [(p.1, Value.vObj p.2)]) ++ ps.map (fun p => (p.1, Value.vObj p.2))) :=
                ih ps (m ++ [(p.1, Value.vObj p.2)]) hrs hnd' hfresh'
          _ = some (m ++ (p :: ps).map (fun p => (p.1, Value.vObj p.2))) := by
                simp

/-- C2: `rows_to_map` on a record lacking the designated key column does
NOT fail with a missing-key error; it silently inserts the whole record
(nothing removed) under the sentinel empty-string key, producing a
corrupted result.  This theorem evaluates the code at the failing input
`rows = [{"name": "Alice"}]`, `column = "id"`. -/
theorem rows_to_map_missing_key_behaviour :
    rowsToMap [[("name", Value.vStr "Alice")]] "id"
      = some [("", Value.vObj [("name", Value.vStr "Alice")])] := rfl

/-- C3 counterexample: a `Select` with limit 150 is reachable through the
builder methods, so the model does not enforce `limit ≤ 100`. -/
theorem limit_cap_counterexample : ∃ s : Select, Reachable s ∧ 100 < s.limit :=
  ⟨SelectOps.limit Select.new 150,
   Reachable.limit Select.new 150 Reachable.new, by decide⟩

/-- C3 amended: the model does not cap the limit at all — `Select::limit`
stores its argument verbatim (`LIMIT_MAX` is declared but never applied),
and every limit value, including values above 100, is reachable through
the construction operations. -/
theorem limit_not_capped :
    (∀ (s : Select) (n : Nat), (SelectOps.limit s n).limit = n) ∧
      (∀ n : Nat, ∃ s : Select, Reachable s ∧ s.limit = n) :=
  ⟨fun _ _ => rfl,
   fun n => ⟨SelectOps.limit Select.new n,
             Reachable.limit Select.new n Reachable.new, rfl⟩⟩

/-- C7: the list-valued builder methods `select`, `filter` and `order`
are cumulative — two successive calls append `v1` then `v2` to the
existing content — and each leaves every other field unchanged (the
results are the full structure updates shown). -/
theorem mutators_cumulative :
    (∀ (s : Select) (v1 v2 : List String),
        SelectOps.select (SelectOps.select s v1) v2
          = { s with select := s.select ++ (v1 ++ v2) }) ∧
      (∀ (s : Select) (v1 v2 : List (String × Operator × Value)),
        SelectOps.filter (SelectOps.filter s v1) v2
          = { s with filter := s.filter ++ (v1 ++ v2) }) ∧
      (∀ (s : Select) (v1 v2 : List (String × Direction)),
        SelectOps.order (SelectOps.order s v1) v2
          = { s with order := s.order ++ (v1 ++ v2) }) := by
  refine ⟨?_, ?_, ?_⟩ <;>
    intro s v1 v2 <;>
    simp [SelectOps.select, SelectOps.filter, SelectOps.order]

/-- C8: `select_to_url` renders each order pair as `column.direction`
(direction lowercased) but joins the pairs with `", "` — comma AND space —
not with the bare comma the wire grammar admits.  Evaluation at the
failing input `order = [("a", ASC), ("b", DESC)]`. -/
theorem order_join_comma_space :
    selectToUrl { table := "t", select := [], filter := [],
                  order := [("a", Direction.ASC), ("b", Direction.DESC)],
                  limit := 0, offset := 0 }
      = some "t?order=a.asc, b.desc" := rfl

/-- C10: in `rows_to_map`, two records carrying the same key value
collapse to one entry holding the later record's remainder (the earlier
one is silently overwritten); and when every record splits successfully
and the key values are pairwise distinct, the result has exactly one
entry per input record, in input order. -/
theorem rows_to_map_overwrite_and_distinct :
    (∀ (r1 r2 : List (String × Value)) (col k : String)
        (rem1 rem2 : List (String × Value)),
        rowSplit r1 col = some (k, rem1) → rowSplit r2 col = some (k, rem2) →
        rowsToMap [r1, r2] col = some [(k, Value.vObj rem2)]) ∧
      (∀ (rows : List (List (String × Value))) (col : String)
          (splits : List (String × List (String × Value))),
        optionMap (fun r => rowSplit r col) rows = some splits →
        (splits.map Prod.fst).Nodup →
        rowsToMap rows col = some (splits.map (fun p => (p.1, Value.vObj p.2)))) := by
  constructor
  · intro r1 r2 col k rem1 rem2 h1 h2
    simp [rowsToMap, foldOption, h1, h2, mapInsert]
  · intro rows col splits h hnd
    have := rowsToMap_go rows splits [] h hnd (by simp)
    simpa [rowsToMap] using this

theorem rows_to_map_overwrite_and_distinct_witness :
    rowsToMap [[("id", Value.vStr "a"), ("x", Value.vStr "1")],
               [("id", Value.vStr "a"), ("x", Value.vStr "2")]] "id"
        = some [("a", Value.vObj [("x", Value.vStr "2")])] ∧
      rowsToMap [[("id", Value.vStr "a")], [("id", Value.vStr "b")]] "id"
        = some [("a", Value.vObj []), ("b", Value.vObj [])] :=
  ⟨rows_to_map_overwrite_and_distinct.1
      [("id", Value.vStr "a"), ("x", Value.vStr "1")]
      [("id", Value.vStr "a"), ("x", Value.vStr "2")]
      "id" "a" [("x", Value.vStr "1")] [("x", Value.vStr "2")] rfl rfl,
   rows_to_map_overwrite_and_distinct.2
      [[("id", Value.vStr "a")], [("id", Value.vStr "b")]] "id"
      [("a", []), ("b", [])] rfl (by decide)⟩

/-- C9: compilation is not total — a filter whose value is the JSON
number 5 makes `select_to_sql`, `select_to_sql_count` and `select_to_url`
all fail (the Rust originals panic on `as_str().unwrap()`), while every
`Select` whose filter values are all JSON strings compiles under all
three functions. -/
theorem compile_partial_on_nonstring_values :
    (selectToSql { table := "t", select := [],
                   filter := [("a", Operator.EQUALS, Value.vNum 5)],
                   order := [], limit := 0, offset := 0 } = none ∧
      selectToSqlCount { table := "t", select := [],
                         filter := [("a", Operator.EQUALS, Value.vNum 5)],
                         order := [], limit := 0, offset := 0 } = none ∧
      selectToUrl { table := "t", select := [],
                    filter := [("a", Operator.EQUALS, Value.vNum 5)],
                    order := [], limit := 0, offset := 0 } = none) ∧
      (∀ s : Select, (∀ f ∈ s.filter, (Value.asStr f.2.2).isSome = true) →
        (selectToSql s).isSome = true ∧ (selectToSqlCount s).isSome = true ∧
          (selectToUrl s).isSome = true) := by
  refine ⟨⟨rfl, rfl, rfl⟩, ?_⟩
  intro s hstr
  obtain ⟨fs1, h1⟩ :=
    optionMap_exists (f := renderFilterSqlFetch) s.filter
      (fun f hf => renderFilterSqlFetch_isSome (hstr f hf))
  obtain ⟨fs2, h2⟩ :=
    optionMap_exists (f := renderFilterSqlCount) s.filter
      (fun f hf => renderFilterSqlCount_isSome (hstr f hf))
  obtain ⟨fs3, h3⟩ :=
    optionMap_exists (f := renderFilterUrl) s.filter
      (fun f hf => renderFilterUrl_isSome (hstr f hf))
  refine ⟨?_, ?_, ?_⟩
  · simp [selectToSql, selectToSqlLines, h1]
  · simp [selectToSqlCount, selectToSqlCountLines, h2]
  · simp [selectToUrl, selectToUrlParams, h3]

theorem compile_partial_on_nonstring_values_witness :
    (selectToSql { table := "t", select := [],
                   filter := [("a", Operator.EQUALS, Value.vStr "x")],
                   order := [], limit := 0, offset := 0 }).isSome = true ∧
      (selectToSqlCount { table := "t", select := [],
                          filter := [("a", Operator.EQUALS, Value.vStr "x")],
                          order := [], limit := 0, offset := 0 }).isSome = true ∧
      (selectToUrl { table := "t", select := [],
                     filter := [("a", Operator.EQUALS, Value.vStr "x")],
                     order := [], limit := 0, offset := 0 }).isSome = true :=
  compile_partial_on_nonstring_values.2
    { table := "t", select := [], filter := [("a", Operator.EQUALS, Value.vStr "x")],
      order := [], limit := 0, offset := 0 }
    (by intro f hf; rcases List.mem_singleton.mp hf with rfl; rfl)

/-- C4 counterexample: with an empty projection list the compiled
row-fetch statement is `SELECT json_object(` / `  ` / `) AS json_result`
over the table — a `json_object()` call with no arguments, i.e. an empty
object per row; the statement contains no `*`, so it does not select all
columns of the table. -/
theorem empty_projection_counterexample :
    selectToSqlLines { table := "t", select := [], filter := [],
                       order := [], limit := 0, offset := 0 }
        = some ["SELECT json_object(", "  ", ") AS json_result", "FROM \"t\""] ∧
      ('*' ∈ (joinSep "\n"
          ["SELECT json_object(", "  ", ") AS json_result", "FROM \"t\""]).data → False) :=
  ⟨rfl, by decide⟩

/-- C4 amended: for every `Select` whose projection list is empty (and
whose filter values are strings, so compilation succeeds), the row-fetch
statement's projection is a `json_object(` aggregate with an empty
argument line — empty projection means NO columns in the emitted SQL,
not all columns. -/
theorem empty_projection_empty_object (s : Select) (hsel : s.select = [])
    (hstr : ∀ f ∈ s.filter, (Value.asStr f.2.2).isSome = true) :
    ∃ rest : List String,
      selectToSqlLines s
        = some ("SELECT json_object(" :: "  " :: ") AS json_result" ::
            ("FROM \"" ++ s.table ++ "\"") :: rest) := by
  obtain ⟨fs, hfs⟩ :=
    optionMap_exists (f := renderFilterSqlFetch) s.filter
      (fun f hf => renderFilterSqlFetch_isSome (hstr f hf))
  refine ⟨(if 0 < s.filter.length then ["WHERE " ++ joinSep "\n  AND " fs] else [])
      ++ sqlTail s, ?_⟩
  simp [selectToSqlLines, hfs, hsel, joinSep, sqlTail]

theorem empty_projection_empty_object_witness :
    ∃ rest : List String,
      selectToSqlLines { table := "t", select := [],
                         filter := [("a", Operator.EQUALS, Value.vStr "x")],
                         order := [], limit := 0, offset := 0 }
        = some ("SELECT json_object(" :: "  " :: ") AS json_result" ::
            ("FROM \"" ++ "t" ++ "\"") :: rest) :=
  empty_projection_empty_object
    { table := "t", select := [], filter := [("a", Operator.EQUALS, Value.vStr "x")],
      order := [], limit := 0, offset := 0 }
    rfl (by intro f hf; rcases List.mem_singleton.mp hf with rfl; rfl)

/-- C1: the round trip fails inside the claimed envelope.  For the query
`rtQ` (equality-free filters, ASC/DESC order on two columns, limit 5,
offset 0) the renderer produces `t?order=a.asc, b.desc&limit=5` — order
pairs joined with comma-space — and the spec-modelled parse recovers the
second order column as `" b"` (leading space), so `parse(render(q))` is
not field-category-equivalent to `q`. -/
theorem url_round_trip_failure :
    selectToUrl rtQ = some "t?order=a.asc, b.desc&limit=5" ∧
      parseUrl "t?order=a.asc, b.desc&limit=5" = some rtQ' ∧
      ¬ equivQ rtQ' rtQ :=
  ⟨rfl, rfl, fun h => absurd h.2.2.1 (by decide)⟩

theorem renderFilterSqlCount_eq_fetch : renderFilterSqlCount = renderFilterSqlFetch := rfl

theorem str_data_append (a b : String) : (a ++ b).data = a.data ++ b.data := rfl

theorem not_infix_of_ne_nil {n : List Char} (hn : n ≠ []) : ¬ n <:+: ([] : List Char) :=
  fun h => hn (List.sublist_nil.mp h.sublist)

theorem infix_of_pfx {x y : List Char} (h : x <+: y) : x <:+: y := by
  obtain ⟨t, rfl⟩ := h
  exact ⟨[], t, rfl⟩

theorem pfx_length_le_of_not_mem {n a b : List Char} {c : Char}
    (hc : c ∉ n) (h : n <+: a ++ c :: b) : n.length ≤ a.length := by
  by_contra hlen
  push_neg at hlen
  have hac : a ++ [c] <+: n :=
    List.prefix_of_prefix_length_le ⟨b, by simp⟩ h (by simp; omega)
  exact hc (hac.sublist.subset (by simp))

theorem not_pfx_append_cons {n a b : List Char} {c : Char}
    (hc : c ∉ n) (ha : ¬ n <:+: a) : ¬ n <+: a ++ c :: b :=
  fun h =>
    ha (infix_of_pfx ((List.isPrefix_append_of_length (pfx_length_le_of_not_mem hc h)).mp h))

theorem not_infix_append_cons {n : List Char} (_hn : n ≠ []) {c : Char} (hc : c ∉ n) :
    ∀ {a b : List Char}, ¬ n <:+: a → ¬ n <:+: b → ¬ n <:+: a ++ c :: b := by
  intro a
  induction a with
  | nil =>
    intro b ha hb h
    rw [List.nil_append] at h
    rcases List.infix_cons_iff.mp h with hp | hi
    · exact not_pfx_append_cons (a := []) hc ha hp
    · exact hb hi
  | cons x a' ih =>
    intro b ha hb h
    have h' : n <:+: x :: (a' ++ c :: b) := h
    rcases List.infix_cons_iff.mp h' with hp | hi
    · exact not_pfx_append_cons (a := x :: a') hc ha hp
    · exact ih (fun hx => ha (List.infix_cons hx)) hb hi

theorem data_amp_step (x j : String) : (x ++ "&" ++ j).data = x.data ++ '&' :: j.data := by
  rw [show (x ++ "&" ++ j).data = (x.data ++ ['&']) ++ j.data from rfl, List.append_assoc]
  rfl

theorem data_commaspace_step (x j : String) :
    (x ++ ", " ++ j).data = x.data ++ ',' :: ' ' :: j.data := by
  rw [show (x ++ ", " ++ j).data = (x.data ++ [',', ' ']) ++ j.data from rfl, List.append_assoc]
  rfl

theorem data_filter_param (c v : String) :
    (c ++ "=eq." ++ v).data = c.data ++ '=' :: 'e' :: 'q' :: '.' :: v.data := by
  rw [show (c ++ "=eq." ++ v).data = (c.data ++ ['=', 'e', 'q', '.']) ++ v.data from rfl,
    List.append_assoc]
  rfl

theorem data_order_piece (c d : String) : (c ++ "." ++ d).data = c.data ++ '.' :: d.data := by
  rw [show (c ++ "." ++ d).data = (c.data ++ ['.']) ++ d.data from rfl, List.append_assoc]
  rfl

theorem data_url_top (t j : String) : (t ++ "?" ++ j).data = t.data ++ '?' :: j.data := by
  rw [show (t ++ "?" ++ j).data = (t.data ++ ['?']) ++ j.data from rfl, List.append_assoc]
  rfl

theorem not_infix_joinSep_amp {n : List Char} (hn : n ≠ []) (hamp : '&' ∉ n) :
    ∀ ps : List String, (∀ p ∈ ps, ¬ n <:+: p.data) → ¬ n <:+: (joinSep "&" ps).data
  | [], _ => by simpa [joinSep] using not_infix_of_ne_nil hn
  | [x], hps => by simpa [joinSep] using hps x (by simp)
  | x :: y :: rest, hps => by
    have hrec :=
      not_infix_joinSep_amp hn hamp (y :: rest) (fun p hp => hps p (by simp [hp]))
    have hstep := not_infix_append_cons hn hamp (hps x (by simp)) hrec
    intro h
    rw [show joinSep "&" (x :: y :: rest) = x ++ "&" ++ joinSep "&" (y :: rest) from rfl,
      data_amp_step] at h
    exact hstep h

theorem not_infix_joinSep_commaspace {n : List Char} (hn : n ≠ [])
    (hcomma : ',' ∉ n) (hspace : ' ' ∉ n) :
    ∀ ps : List String, (∀ p ∈ ps, ¬ n <:+: p.data) → ¬ n <:+: (joinSep ", " ps).data
  | [], _ => by simpa [joinSep] using not_infix_of_ne_nil hn
  | [x], hps => by simpa [joinSep] using hps x (by simp)
  | x :: y :: rest, hps => by
    have hrec :=
      not_infix_joinSep_commaspace hn hcomma hspace (y :: rest)
        (fun p hp => hps p (by simp [hp]))
    have hinner : ¬ n <:+: ([] : List Char) ++ ' ' :: (joinSep ", " (y :: rest)).data :=
      not_infix_append_cons hn hspace (not_infix_of_ne_nil hn) hrec
    have hstep := not_infix_append_cons hn hcomma (hps x (by simp)) hinner
    intro h
    rw [show joinSep ", " (x :: y :: rest) = x ++ ", " ++ joinSep ", " (y :: rest) from rfl,
      data_commaspace_step] at h
    exact hstep h

theorem digitChar_mem_digitList {m : Nat} (h : m < 10) : Nat.digitChar m ∈ digitList := by
  interval_cases m <;> decide

theorem natDigitsAux_mem : ∀ (fuel k : Nat), ∀ c ∈ natDigitsAux fuel k, c ∈ digitList
  | 0, _ => by simp [natDigitsAux]
  | fuel + 1, k => by
    intro c hc
    by_cases h : k < 10
    · simp only [natDigitsAux, if_pos h, List.mem_singleton] at hc
      exact hc ▸ digitChar_mem_digitList h
    · simp only [natDigitsAux, if_neg h, List.mem_append, List.mem_singleton] at hc
      rcases hc with hc | hc
      · exact natDigitsAux_mem fuel (k / 10) c hc
      · exact hc ▸ digitChar_mem_digitList (Nat.mod_lt _ (by norm_num))

theorem not_infix_digits {n : List Char} {ch : Char} (hch : ch ∈ n) (hchd : ch ∉ digitList)
    (fuel k : Nat) : ¬ n <:+: natDigitsAux fuel k :=
  fun h => hchd (natDigitsAux_mem fuel k ch (h.sublist.subset hch))

theorem not_infix_selectToUrl {n : List Char} (hn : n ≠ [])
    (hq : '?' ∉ n) (hamp : '&' ∉ n) (heq : '=' ∉ n) (hdot : '.' ∉ n)
    (hcomma : ',' ∉ n) (hspace : ' ' ∉ n)
    (hworder : ¬ n <:+: "order".data) (hweq : ¬ n <:+: ['e', 'q'])
    (hwasc : ¬ n <:+: "asc".data) (hwdesc : ¬ n <:+: "desc".data)
    {e : Char} (hch : e ∈ n) (hchd : e ∉ digitList)
    (s : Select) (u : String) (hu : selectToUrl s = some u)
    (hlim : 0 < s.limit ∧ s.limit ≠ LIMIT_DEFAULT → ¬ n <:+: "limit".data)
    (hoff : 0 < s.offset → ¬ n <:+: "offset".data)
    (htab : ¬ n <:+: s.table.data)
    (hcols : ∀ f ∈ s.filter, ¬ n <:+: f.1.data)
    (hvals : ∀ f ∈ s.filter, ∀ v, Value.asStr f.2.2 = some v → ¬ n <:+: v.data)
    (hords : ∀ o ∈ s.order, ¬ n <:+: o.1.data) :
    ¬ n <:+: u.data := by
  cases hps : selectToUrlParams s with
  | none => rw [selectToUrl, hps] at hu; cases hu
  | some ps =>
    rw [selectToUrl, hps, Option.some.injEq] at hu
    cases hfp : optionMap renderFilterUrl s.filter with
    | none => rw [selectToUrlParams, hfp] at hps; cases hps
    | some fps =>
      rw [selectToUrlParams, hfp, Option.some.injEq] at hps
      have hall : ∀ p ∈ ps, ¬ n <:+: p.data := by
        rw [← hps]
        intro p hp
        rcases List.mem_append.mp hp with hp3 | hpoff
        rotate_left
        · -- offset parameter
          by_cases hc : 0 < s.offset
          · rw [if_pos hc, List.mem_singleton] at hpoff
            subst hpoff
            intro hcontr
            exact not_infix_append_cons hn heq (hoff hc)
              (not_infix_digits hch hchd (s.offset + 1) s.offset) hcontr
          · rw [if_neg hc] at hpoff; cases hpoff
        rcases List.mem_append.mp hp3 with hp2 | hplim
        rotate_left
        · -- limit parameter
          by_cases hc : 0 < s.limit ∧ s.limit ≠ LIMIT_DEFAULT
          · rw [if_pos hc, List.mem_singleton] at hplim
            subst hplim
            intro hcontr
            exact not_infix_append_cons hn heq (hlim hc)
              (not_infix_digits hch hchd (s.limit + 1) s.limit) hcontr
          · rw [if_neg hc] at hplim; cases hplim
        rcases List.mem_append.mp hp2 with hpf | hpord
        · -- filter parameter
          obtain ⟨f, hf, hrf⟩ := optionMap_mem hfp p hpf
          cases hv : f.2.2.asStr with
          | none => rw [renderFilterUrl, hv] at hrf; cases hrf
          | some v =>
            rw [renderFilterUrl, hv, Option.some.injEq] at hrf
            subst hrf
            intro hcontr
            rw [data_filter_param] at hcontr
            exact not_infix_append_cons hn heq (hcols f hf)
              (not_infix_append_cons (a := ['e', 'q']) hn hdot hweq (hvals f hf v hv)) hcontr
        · -- order parameter
          by_cases hc : 0 < s.order.length
          · rw [if_pos hc, List.mem_singleton] at hpord
            subst hpord
            have hpieces : ∀ q ∈ s.order.map urlOrderPart, ¬ n <:+: q.data := by
              intro q hq
              obtain ⟨o, ho, rfl⟩ := List.mem_map.mp hq
              have hdir : ¬ n <:+: (dirLower o.2).data := by
                cases o.2 with
                | ASC => exact hwasc
                | DESC => exact hwdesc
              intro hcontr
              have hcontr' : n <:+: (o.1 ++ "." ++ dirLower o.2).data := hcontr
              rw [data_order_piece] at hcontr'
              exact not_infix_append_cons hn hdot (hords o ho) hdir hcontr'
            have hjoin := not_infix_joinSep_commaspace hn hcomma hspace _ hpieces
            intro hcontr
            exact not_infix_append_cons (a := "order".data) hn heq hworder hjoin hcontr
          · rw [if_neg hc] at hpord; cases hpord
      by_cases hlen : 0 < ps.length
      · rw [if_pos hlen] at hu
        subst hu
        intro h
        rw [data_url_top] at h
        exact not_infix_append_cons hn hq htab
          (not_infix_joinSep_amp hn hamp ps hall) h
      · rw [if_neg hlen] at hu
        subst hu
        exact htab

/-- C5 counterexample: a filter on a column literally named `limit` makes
the rendered URL contain the substring `limit=` even though the query's
limit is 10 (the default), refuting the claim's unconditional substring
property. -/
theorem url_limit_substring_counterexample :
    selectToUrl { table := "t", select := [],
                  filter := [("limit", Operator.EQUALS, Value.vStr "5")],
                  order := [], limit := 10, offset := 0 }
        = some "t?limit=eq.5" ∧
      "limit=".data <:+: "t?limit=eq.5".data :=
  ⟨rfl, by decide⟩

/-- C5 amended: when limit = 10 (the default) `select_to_url` appends no
limit parameter, and the rendered URL contains no `limit=` substring
PROVIDED the word `limit` occurs in none of the caller-supplied strings
(table name, filter columns, string filter values, order columns);
symmetrically, when offset = 0 no offset parameter is appended and no
`offset=` substring occurs provided the word `offset` occurs in no
caller-supplied string. -/
theorem select_to_url_canonical_omission (s : Select) (u : String)
    (hu : selectToUrl s = some u) :
    (s.limit = 10 → NoOccur s "limit" → ¬ "limit=".data <:+: u.data) ∧
      (s.offset = 0 → NoOccur s "offset" → ¬ "offset=".data <:+: u.data) := by
  constructor
  · intro hl hno
    obtain ⟨htab, hcols, hvals, hords⟩ := hno
    have hmain :=
      not_infix_selectToUrl (n := "limit".data) (by decide) (by decide) (by decide)
        (by decide) (by decide) (by decide) (by decide) (by decide) (by decide)
        (by decide) (by decide) (e := 'l') (by decide) (by decide) s u hu
        (fun hg => absurd (show s.limit = LIMIT_DEFAULT by rw [hl]; rfl) hg.2)
        (fun _ => by decide) htab hcols hvals hords
    intro h
    exact hmain (List.IsInfix.trans (infix_of_pfx ⟨['='], rfl⟩) h)
  · intro ho hno
    obtain ⟨htab, hcols, hvals, hords⟩ := hno
    have hmain :=
      not_infix_selectToUrl (n := "offset".data) (by decide) (by decide) (by decide)
        (by decide) (by decide) (by decide) (by decide) (by decide) (by decide)
        (by decide) (by decide) (e := 'o') (by decide) (by decide) s u hu
        (fun _ => by decide)
        (fun hg => absurd (ho ▸ hg) (by decide)) htab hcols hvals hords
    intro h
    exact hmain (List.IsInfix.trans (infix_of_pfx ⟨['='], rfl⟩) h)

theorem select_to_url_canonical_omission_witness :
    ¬ "limit=".data <:+: "t?name=eq.Alice&order=age.desc".data ∧
      ¬ "offset=".data <:+: "t?name=eq.Alice&order=age.desc".data := by
  have h :=
    select_to_url_canonical_omission
      { table := "t", select := [],
        filter := [("name", Operator.EQUALS, Value.vStr "Alice")],
        order := [("age", Direction.DESC)], limit := 10, offset := 0 }
      "t?name=eq.Alice&order=age.desc" rfl
  have hlim : NoOccur
      { table := "t", select := [],
        filter := [("name", Operator.EQUALS, Value.vStr "Alice")],
        order := [("age", Direction.DESC)], limit := 10, offset := 0 } "limit" := by
    refine ⟨by decide, ?_, ?_, ?_⟩
    · intro f hf
      rcases List.mem_singleton.mp hf with rfl
      decide
    · intro f hf v hv
      rcases List.mem_singleton.mp hf with rfl
      cases hv
      decide
    · intro o ho
      rcases List.mem_singleton.mp ho with rfl
      decide
  have hoff : NoOccur
      { table := "t", select := [],
        filter := [("name", Operator.EQUALS, Value.vStr "Alice")],
        order := [("age", Direction.DESC)], limit := 10, offset := 0 } "offset" := by
    refine ⟨by decide, ?_, ?_, ?_⟩
    · intro f hf
      rcases List.mem_singleton.mp hf with rfl
      decide
    · intro f hf v hv
      rcases List.mem_singleton.mp hf with rfl
      cases hv
      decide
    · intro o ho
      rcases List.mem_singleton.mp ho with rfl
      decide
  exact ⟨h.1 rfl hlim, h.2 rfl hoff⟩

/-- C6: the count statement is the count header, the same `FROM` line as
the row-fetch statement, and the same `WHERE` clause `w` (rendered from
the same filters by the same format, joined by `AND`) — and nothing else:
no projection, no ORDER BY, no LIMIT, no OFFSET line.  Moreover it is
independent of the `select`, `order`, `limit` and `offset` fields: any
query with the same table and filters compiles to the same count
statement. -/
theorem count_statement_shape (s : Select)
    (hstr : ∀ f ∈ s.filter, (Value.asStr f.2.2).isSome = true) :
    ∃ w : List String,
      selectToSqlCountLines s = some (countHeaderLine :: sqlFromLine s :: w) ∧
      (∃ proj : String,
        selectToSqlLines s = some ("SELECT json_object(" :: proj :: ") AS json_result" ::
          sqlFromLine s :: (w ++ sqlTail s))) ∧
      (s.filter = [] → w = []) ∧
      (s.filter ≠ [] →
        ∃ fs, optionMap renderFilterSqlFetch s.filter = some fs ∧ w = [sqlWhereLine fs]) ∧
      (∀ t : Select, t.table = s.table → t.filter = s.filter →
        selectToSqlCount t = selectToSqlCount s) := by
  obtain ⟨fs, hfs⟩ :=
    optionMap_exists (f := renderFilterSqlFetch) s.filter
      (fun f hf => renderFilterSqlFetch_isSome (hstr f hf))
  have hfsC : optionMap renderFilterSqlCount s.filter = some fs := by
    rw [renderFilterSqlCount_eq_fetch]; exact hfs
  have hindep : ∀ t : Select, t.table = s.table → t.filter = s.filter →
      selectToSqlCount t = selectToSqlCount s := by
    intro t ht htf
    unfold selectToSqlCount selectToSqlCountLines
    rw [ht, htf]
  refine ⟨if 0 < s.filter.length then [sqlWhereLine fs] else [], ?_, ?_, ?_, ?_, hindep⟩
  · by_cases hf : 0 < s.filter.length <;>
      simp [selectToSqlCountLines, hfsC, hf, countHeaderLine, sqlFromLine, sqlWhereLine]
  · refine ⟨"  " ++ joinSep ",\n  "
        (s.select.map (fun c => "'" ++ c ++ "', \"" ++ c ++ "\"")), ?_⟩
    by_cases hf : 0 < s.filter.length <;>
      simp [selectToSqlLines, hfs, hf, sqlFromLine, sqlWhereLine, sqlTail]
  · intro hf
    simp [hf]
  · intro hf
    have : 0 < s.filter.length := List.length_pos.mpr hf
    exact ⟨fs, hfs, by simp [this]⟩

theorem count_statement_shape_witness :
    ∃ w : List String,
      selectToSqlCountLines { table := "t", select := ["c"],
                              filter := [("a", Operator.EQUALS, Value.vStr "x")],
                              order := [("o", Direction.ASC)], limit := 7, offset := 3 }
          = some (countHeaderLine ::
              sqlFromLine { table := "t", select := ["c"],
                            filter := [("a", Operator.EQUALS, Value.vStr "x")],
                            order := [("o", Direction.ASC)], limit := 7, offset := 3 } :: w) ∧
        (∃ proj : String,
          selectToSqlLines { table := "t", select := ["c"],
                             filter := [("a", Operator.EQUALS, Value.vStr "x")],
                             order := [("o", Direction.ASC)], limit := 7, offset := 3 }
            = some ("SELECT json_object(" :: proj :: ") AS json_result" ::
                sqlFromLine { table := "t", select := ["c"],
                              filter := [("a", Operator.EQUALS, Value.vStr "x")],
                              order := [("o", Direction.ASC)], limit := 7, offset := 3 } ::
                  (w ++ sqlTail { table := "t", select := ["c"],
                                  filter := [("a", Operator.EQUALS, Value.vStr "x")],
                                  order := [("o", Direction.ASC)], limit := 7, offset := 3 }))) ∧
        (({ table := "t", select := ["c"],
            filter := [("a", Operator.EQUALS, Value.vStr "x")],
            order := [("o", Direction.ASC)], limit := 7, offset := 3 } : Select).filter = []
          → w = []) ∧
        (({ table := "t", select := ["c"],
            filter := [("a", Operator.EQUALS, Value.vStr "x")],
            order := [("o", Direction.ASC)], limit := 7, offset := 3 } : Select).filter ≠ []
          → ∃ fs, optionMap renderFilterSqlFetch
                [("a", Operator.EQUALS, Value.vStr "x")] = some fs ∧ w = [sqlWhereLine fs]) ∧
        (∀ t : Select, t.table = "t" →
          t.filter = [("a", Operator.EQUALS, Value.vStr "x")] →
          selectToSqlCount t
            = selectToSqlCount { table := "t", select := ["c"],
                                 filter := [("a", Operator.EQUALS, Value.vStr "x")],
                                 order := [("o", Direction.ASC)], limit := 7, offset := 3 }) :=
  count_statement_shape
    { table := "t", select := ["c"], filter := [("a", Operator.EQUALS, Value.vStr "x")],
      order := [("o", Direction.ASC)], limit := 7, offset := 3 }
    (by intro f hf; rcases List.mem_singleton.mp hf with rfl; rfl)

end Nanobot
